import Mathlib

/-!
# Verification of the anonymous-chat room coordinator

A shallow embedding of the persisted (database-backed) room coordinator
(`ChatServer` in the durable-object source, together with the drizzle
schema) and of the client-side reconnect logic (`src/app/stores/chat.ts`).
Machine state is passed explicitly; fallible database calls return
`Except`; the JavaScript behaviour of an exception thrown inside a
handler is modelled by an `errored` result carrying the outputs emitted
before the throw.
-/

namespace AnonChat

/-! ## Data model (drizzle schema, `src/drizzle/schema.ts`)

Timestamps (`timestamp_ms`) are modelled as `Nat` milliseconds; ids
(`crypto.randomUUID()`) as opaque strings drawn injectively from a
counter carried in the store state. -/

/-- Row of the `users` table: `id` (PK, default `crypto.randomUUID()`),
`name` (default `getRandomName()`), `createdAt` (default `new Date()`). -/
structure User where
  id : String
  name : String
  createdAt : Nat
  deriving Repr, DecidableEq

/-- `MessageType` keys (`ClientToServerMessage.messageType` carries the
keys `TEXT | IMAGE | AUDIO`, and the coordinator inserts that key verbatim
into the `message_type` column). -/
inductive MessageType where
  | TEXT
  | IMAGE
  | AUDIO
  deriving Repr, DecidableEq

/-- `ImageMetadata` of the schema: width, height, mimeType, fileSize and
an optional thumbnailUrl.  The persisted coordinator only ever stores
image metadata (audio metadata never reaches the insert). -/
structure ImageMetadata where
  width : Nat
  height : Nat
  mimeType : String
  fileSize : Nat
  thumbnailUrl : Option String := none
  deriving Repr, DecidableEq

/-- Row of the `messages` table.  `id` and `createdAt` have column
defaults (`crypto.randomUUID()`, `new Date()`): they are assigned by the
store at insert time, never by the caller. -/
structure Message where
  id : String
  userId : String
  messageType : MessageType
  content : String
  metadata : Option ImageMetadata
  createdAt : Nat
  deriving Repr, DecidableEq

/-! ## The durable store -/

/-- Failure of a database operation: an underlying persistence error, or
a `NOT NULL` constraint violation (inserting an `undefined` column). -/
inductive StoreErr where
  | storage
  | notNull
  deriving Repr, DecidableEq

/-- The SQLite-backed store plus the ambient sources the column defaults
read: `seed` feeds `crypto.randomUUID()` / `getRandomName()` (one fresh
draw per insert), `now` is the wall clock `new Date()` reads, and `ok`
models whether the underlying persistence layer is healthy (`false`
makes every database call throw, the `StorageFailure` class). -/
structure Db where
  users : List User
  messages : List Message
  seed : Nat
  now : Nat
  ok : Bool
  deriving Repr, DecidableEq

/-- `crypto.randomUUID()` for a `users` insert: an opaque string, fresh
because the seed is consumed. -/
def freshUserId (seed : Nat) : String := "u-" ++ toString seed

/-- `crypto.randomUUID()` for a `messages` insert. -/
def freshMessageId (seed : Nat) : String := "m-" ++ toString seed

/-- Modelled from the spec: `getRandomName` is imported by the schema
from `src/drizzle/utils`, a file not among the provided sources.  Per
the spec it draws a display name from an adjective×noun combination
pool by a stable pseudo-random choice, with no dedup requirement; the
pseudo-random draw is modelled by the seed the store consumes. -/
def getRandomName (seed : Nat) : String :=
  let adjectives : List String := ["Happy", "Clever", "Swift", "Brave", "Gentle"]
  let animals : List String := ["Cat", "Fox", "Owl", "Bear", "Wolf"]
  adjectives.getD (seed % adjectives.length) "Happy"
    ++ animals.getD ((seed / adjectives.length) % animals.length) "Cat"

/-- `db.query.users.findFirst({ where: eq(users.id, uid) })`. -/
def findUser (db : Db) (uid : String) : Option User :=
  db.users.find? (fun u => u.id = uid)

/-- `db.insert(users).values({}).returning()`: every column filled from
its default; exactly one row appended to `users`. -/
def insertDefaultUser (db : Db) : Except StoreErr (User × Db) :=
  if db.ok then
    let u : User :=
      { id := freshUserId db.seed, name := getRandomName db.seed, createdAt := db.now }
    .ok (u, { db with users := db.users ++ [u], seed := db.seed + 1 })
  else
    .error .storage

/-- `db.insert(messages).values({userId, messageType, content, metadata})
.returning()`.  `messageType` and `content` are `NOT NULL` columns: an
insert with either `undefined` throws; `id`/`createdAt` come from the
column defaults. -/
def insertMessage (db : Db) (uid : String) (messageType : Option MessageType)
    (content : Option String) (metadata : Option ImageMetadata) :
    Except StoreErr (Message × Db) :=
  if db.ok then
    match messageType, content with
    | some mt, some c =>
      let m : Message :=
        { id := freshMessageId db.seed, userId := uid, messageType := mt,
          content := c, metadata := metadata, createdAt := db.now }
      .ok (m, { db with messages := db.messages ++ [m], seed := db.seed + 1 })
    | _, _ => .error .notNull
  else
    .error .storage

/-- One step of the `ORDER BY created_at DESC` sort: insert a row into an
already descending list, keeping it descending. -/
def sortedInsertDesc (m : Message) : List Message → List Message
  | [] => [m]
  | x :: xs =>
    if x.createdAt ≤ m.createdAt then m :: x :: xs else x :: sortedInsertDesc m xs

/-- `ORDER BY created_at DESC` over the `messages` table.  SQLite leaves
the relative order of equal keys unspecified; this deterministic sort is
one refinement of that, and the theorems below only evaluate it on
stores whose timestamps are pairwise distinct, where every descending
sort agrees. -/
def sortDescByCreatedAt : List Message → List Message
  | [] => []
  | x :: xs => sortedInsertDesc x (sortDescByCreatedAt xs)

/-- `db.query.messages.findMany({ orderBy: desc(createdAt), limit })`. -/
def recentMessages (db : Db) (limit : Nat) : List Message :=
  (sortDescByCreatedAt db.messages).take limit

/-! ## Connections, envelopes and outputs -/

/-- Handle of one live WebSocket.  `userId` is the serialized attachment
(`serializeAttachment({userId})` at accept time); `sendOk` models
whether a `send()` on this socket succeeds — a socket that is already
closing makes `send()` throw. -/
structure Conn where
  id : Nat
  userId : String
  sendOk : Bool
  deriving Repr, DecidableEq

/-- `sender: { id, name }` attached to outbound chat/history messages. -/
structure SenderInfo where
  id : String
  name : String
  deriving Repr, DecidableEq

/-- One history entry: `{ ...msg, sender }`. -/
structure AnnotatedMessage where
  msg : Message
  sender : SenderInfo
  deriving Repr, DecidableEq

/-- Server→client wire envelopes (`src` types module). -/
inductive Envelope where
  | init (user : User)
  | onlineCount (count : Nat)
  | userJoin (user : User)
  | userLeave (user : User)
  | historyMessages (messages : List AnnotatedMessage)
  | chat (message : Message) (sender : SenderInfo)
  deriving Repr, DecidableEq

/-- An observable send: this envelope was written to that socket. -/
inductive Output where
  | send (dest : Nat) (e : Envelope)
  deriving Repr, DecidableEq

/-- Coordinator state: the store plus `ctx.getWebSockets()`, the list of
currently accepted live connections, in accept order. -/
structure RoomState where
  db : Db
  conns : List Conn
  deriving Repr, DecidableEq

/-- The server half of the `WebSocketPair` minted for an accepted
upgrade, with `{userId: u.id}` as its serialized attachment. -/
def newConn (cid : Nat) (u : User) : Conn :=
  { id := cid, userId := u.id, sendOk := true }

/-- `broadcastMessage`: `for (const client of this.ctx.getWebSockets())
client.send(...)`.  A throwing `send` aborts the loop: the returned
outputs are the sends delivered before the first failure, and the flag
is `false` when the exception escaped (sockets after the failing one are
never attempted). -/
def broadcastMessage (conns : List Conn) (e : Envelope) : List Output × Bool :=
  match conns with
  | [] => ([], true)
  | c :: rest =>
    if c.sendOk then
      let (outs, ok) := broadcastMessage rest e
      (Output.send c.id e :: outs, ok)
    else
      ([], false)

/-- The display name attached to a history entry:
`userMap.get(msg.userId) || "未知用户"` — the batch `users` lookup, with
the placeholder covering both a missing sender row and a falsy (empty)
name. -/
def senderName (db : Db) (uid : String) : String :=
  match findUser db uid with
  | some u => if u.name = "" then "未知用户" else u.name
  | none => "未知用户"

/-- `{ ...msg, sender: { id: msg.userId, name: userMap.get(...) || ... } }`. -/
def annotate (db : Db) (m : Message) : AnnotatedMessage :=
  { msg := m, sender := { id := m.userId, name := senderName db m.userId } }

/-- `sendHistoryMessages(ws)`: fetch the most recent 50 messages
(`ORDER BY created_at DESC LIMIT 50`), and only when at least one
exists, annotate each with its sender and send the reversed
(chronological) list as a single `history_messages` envelope to `ws`
alone.  The whole body is inside `try/catch`: a failing query or a
failing send is logged and swallowed, so this handler never throws and
never changes state. -/
def sendHistoryMessages (db : Db) (ws : Conn) : List Output :=
  if db.ok then
    let messages := recentMessages db 50
    if messages.length > 0 then
      let withSenders := (messages.map (annotate db)).reverse
      if ws.sendOk then [Output.send ws.id (.historyMessages withSenders)] else []
    else []
  else []

/-! ## The connect path (`ChatServer.fetch`) -/

/-- Outcome of an upgrade request.  `accepted` carries the resolved user,
the post-event coordinator state and the outputs emitted; `rejected400`
is `new Response(null, { status: 400 })` — the handshake fails before any
WebSocket exists, so no server-chosen close code ever reaches the
client; `errored` is an exception escaping `fetch` uncaught, with the
outputs already emitted before the throw. -/
inductive FetchResult where
  | accepted (user : User) (st : RoomState) (outs : List Output)
  | rejected400 (st : RoomState)
  | errored (st : RoomState) (outs : List Output)
  deriving Repr, DecidableEq

/-- The tail of `fetch` once a user is resolved: accept the socket into
the registry, attach `{userId}`, send `init` to it (unguarded — a
throwing send escapes), replay history to it alone, then broadcast the
online count (`getWebSockets().length`, the new socket included) and the
`user_join` event to every live socket. -/
def acceptAndGreet (st : RoomState) (u : User) (cid : Nat) (csend : Bool) :
    FetchResult :=
  let conn : Conn := { id := cid, userId := u.id, sendOk := csend }
  let st1 : RoomState := { st with conns := st.conns ++ [conn] }
  if csend then
    let initOut := Output.send cid (.init u)
    let histOuts := sendHistoryMessages st1.db conn
    let (ocOuts, ok1) := broadcastMessage st1.conns (.onlineCount st1.conns.length)
    if ok1 then
      let (jlOuts, ok2) := broadcastMessage st1.conns (.userJoin u)
      if ok2 then
        .accepted u st1 (initOut :: histOuts ++ ocOuts ++ jlOuts)
      else
        .errored st1 (initOut :: histOuts ++ ocOuts ++ jlOuts)
    else
      .errored st1 (initOut :: histOuts ++ ocOuts)
  else
    .errored st1 []

/-- `ChatServer.fetch` of the persisted coordinator.  `candidate` is the
`userId` query parameter (`none` for absent; the code's `if (!userId)`
also treats the empty string as absent).  Without a token a new user row
is inserted from column defaults; with one, the row is looked up and a
miss is answered with HTTP 400 — no replacement identity is ever
created.  `cid`/`csend` stand for the server half of the
`WebSocketPair` the runtime would mint. -/
def fetch (st : RoomState) (candidate : Option String) (cid : Nat)
    (csend : Bool) : FetchResult :=
  let uid := candidate.getD ""
  if uid = "" then
    match insertDefaultUser st.db with
    | .error _ => .errored st []
    | .ok (u, db1) => acceptAndGreet { st with db := db1 } u cid csend
  else
    if st.db.ok then
      match findUser st.db uid with
      | none => .rejected400 st
      | some u => acceptAndGreet st u cid csend
    else
      .errored st []

/-! ## Inbound client payloads (`ClientToServerMessage`) -/

/-- The client-supplied `metadata` object, every field optional. -/
structure ClientMetadata where
  width : Option Nat := none
  height : Option Nat := none
  mimeType : Option String := none
  fileSize : Option Nat := none
  thumbnailUrl : Option String := none
  deriving Repr, DecidableEq

/-- One inbound WebSocket frame as the coordinator sees it: a binary
frame (`typeof message !== "string"`), a text frame that is not valid
JSON (`JSON.parse` throws), or parsed JSON whose fields may each be
missing.  The coordinator never checks `typ`, `content` or
`messageType` before using them. -/
inductive ClientPayload where
  | binary
  | notJson
  | json (typ : Option String) (content : Option String)
      (messageType : Option MessageType) (metadata : Option ClientMetadata)
  deriving Repr, DecidableEq

/-- The metadata actually persisted: only when
`clientMessage.messageType === "IMAGE" && clientMessage.metadata` is an
`ImageMetadata` built, with `Number(x || 0)` defaulting width, height
and fileSize to 0, `String(mimeType || "image/webp")` defaulting the
mime type, and `thumbnailUrl` included only when truthy (present and
non-empty).  Every other message type stores `undefined` (SQL `NULL`),
discarding whatever the client supplied. -/
def computeMetadata (messageType : Option MessageType)
    (md : Option ClientMetadata) : Option ImageMetadata :=
  match messageType, md with
  | some .IMAGE, some cm =>
    some
      { width := cm.width.getD 0
        height := cm.height.getD 0
        mimeType :=
          match cm.mimeType with
          | some s => if s = "" then "image/webp" else s
          | none => "image/webp"
        fileSize := cm.fileSize.getD 0
        thumbnailUrl :=
          match cm.thumbnailUrl with
          | some s => if s = "" then none else some s
          | none => none }
  | _, _ => none

/-- Outcome of a message/close handler: a normal return, or an exception
escaping the handler uncaught (`errored`), each with the post-event
state and the outputs emitted before returning or throwing. -/
inductive HandlerResult where
  | ok (st : RoomState) (outs : List Output)
  | errored (st : RoomState) (outs : List Output)
  deriving Repr, DecidableEq

/-- `ChatServer.webSocketMessage` of the persisted coordinator.  Binary
frames return silently; `JSON.parse` of a non-JSON text frame throws
uncaught (there is no `try/catch` in this handler); an unknown sender
returns silently; the insert throws uncaught on a storage error or a
`NOT NULL` violation (missing `content`/`messageType`); on success the
stored row is broadcast, with the sender `{id, name}`, to every live
socket — the sender's own included. -/
def webSocketMessage (st : RoomState) (c : Conn) (payload : ClientPayload) :
    HandlerResult :=
  match payload with
  | .binary => .ok st []
  | .notJson => .errored st []
  | .json _typ content messageType md =>
    if st.db.ok then
      match findUser st.db c.userId with
      | none => .ok st []
      | some sender =>
        let metadata := computeMetadata messageType md
        match insertMessage st.db c.userId messageType content metadata with
        | .error _ => .errored st []
        | .ok (m, db1) =>
          let st1 : RoomState := { st with db := db1 }
          let (outs, okb) :=
            broadcastMessage st1.conns (.chat m { id := sender.id, name := sender.name })
          if okb then .ok st1 outs else .errored st1 outs
    else
      .errored st []

/-- `ChatServer.webSocketClose`.  The runtime has already removed the
closing socket from `getWebSockets()` when the handler runs, so the
registry is filtered first; a falsy attachment or an unknown user
returns silently; otherwise the new online count and the `user_leave`
event are broadcast to the remaining sockets. -/
def webSocketClose (st : RoomState) (c : Conn) : HandlerResult :=
  let st1 : RoomState := { st with conns := st.conns.filter (fun x => x.id ≠ c.id) }
  if c.userId = "" then .ok st1 []
  else if st1.db.ok then
    match findUser st1.db c.userId with
    | none => .ok st1 []
    | some u =>
      let (ocOuts, ok1) := broadcastMessage st1.conns (.onlineCount st1.conns.length)
      if ok1 then
        let (jlOuts, ok2) := broadcastMessage st1.conns (.userLeave u)
        if ok2 then .ok st1 (ocOuts ++ jlOuts) else .errored st1 (ocOuts ++ jlOuts)
      else
        .errored st1 ocOuts
  else
    .errored st1 []

/-! ## Client-side identity continuity (`src/app/stores/chat.ts`) -/

/-- The identity the client keeps in `localStorage` (`partialize` keeps
only `user`): here just the stored id, the part the reconnect contract
is about. -/
structure ClientState where
  storedId : Option String
  deriving Repr, DecidableEq

/-- Modelled from the runtime contract: when the upgrade request is
answered with a non-101 response (the coordinator's HTTP 400), the
WebSocket handshake fails and the browser fires `onclose` with the
abnormal-closure code 1006 — a peer-chosen close code such as 1008 or
1011 requires a completed WebSocket, which a rejected handshake never
produces. -/
def rejectionCloseCode : Nat := 1006

/-- The `ws.onclose` identity logic (`chat.ts` lines 175–194): only on
close codes 1008 or 1011 is the stored user removed
(`removeUserFromStorage(); set({user: null})`) before reconnecting; any
other code reconnects after a backoff with the stored id preserved. -/
def onCloseUpdate (cs : ClientState) (code : Nat) : ClientState :=
  if code = 1008 ∨ code = 1011 then { storedId := none } else cs

/-- One connect–outcome round of the client against the coordinator: the
client dials with its stored id (`createWebSocket(store.user?.id)`); on
acceptance the `init` user is saved (`setUser`); on rejection the
client state is updated by `onclose` with the close code it actually
observes. -/
def clientRetryStep (st : RoomState) (cs : ClientState) (cid : Nat) : ClientState :=
  match fetch st cs.storedId cid true with
  | .accepted u _ _ => { storedId := some u.id }
  | .rejected400 _ => onCloseUpdate cs rejectionCloseCode
  | .errored _ _ => onCloseUpdate cs rejectionCloseCode

/-! ## Concrete scenarios used by witnesses and counterexamples -/

/-- A participant already present in the `users` table. -/
def userA : User := { id := "u-a", name := "HappyCat", createdAt := 0 }

/-- A live, healthy connection attached to `userA`. -/
def connA : Conn := { id := 0, userId := "u-a", sendOk := true }

/-- A second live connection for the same participant (two tabs). -/
def connB : Conn := { id := 1, userId := "u-a", sendOk := true }

/-- A connection whose socket is already closing: `send()` throws. -/
def connBad : Conn := { id := 1, userId := "u-a", sendOk := false }

/-- A third healthy live connection. -/
def connC : Conn := { id := 2, userId := "u-a", sendOk := true }

/-- A stored message from `userA`. -/
def msg1 : Message :=
  { id := "m-1", userId := "u-a", messageType := .TEXT, content := "hi",
    metadata := none, createdAt := 3 }

/-- A stored message whose sender row is missing from `users`. -/
def msg2 : Message :=
  { id := "m-2", userId := "u-ghost", messageType := .TEXT, content := "yo",
    metadata := none, createdAt := 5 }

/-- A healthy store with two messages and one known participant. -/
def dbLive : Db :=
  { users := [userA], messages := [msg1, msg2], seed := 9, now := 8, ok := true }

/-- A room over `dbLive` with two live connections of the same identity. -/
def stLive : RoomState := { db := dbLive, conns := [connA, connB] }

/-- A healthy store holding zero messages. -/
def dbEmptyStore : Db :=
  { users := [userA], messages := [], seed := 1, now := 4, ok := true }

/-- A room over the empty store with one live connection. -/
def stEmptyStore : RoomState := { db := dbEmptyStore, conns := [connA] }

/-- A store whose persistence layer is failing: every database call throws. -/
def dbDown : Db :=
  { users := [userA], messages := [], seed := 1, now := 4, ok := false }

/-- A room over the failing store. -/
def stDown : RoomState := { db := dbDown, conns := [connA] }

/-- A fresh room: no users, no messages, no connections. -/
def stFresh : RoomState :=
  { db := { users := [], messages := [], seed := 0, now := 0, ok := true },
    conns := [] }

/-- A client holding a stored id no `users` row has. -/
def csGhost : ClientState := { storedId := some "ghost" }

/-- Client-supplied metadata with every field present. -/
def cmW : ClientMetadata :=
  { width := some 10, height := some 20, mimeType := some "image/png",
    fileSize := some 1234, thumbnailUrl := some "tn" }

/-! ## Lemmas about the embedded operations -/

/-- When every socket's `send` succeeds, a broadcast delivers the
envelope to every live connection, in registry order, and the loop
completes normally. -/
theorem broadcastMessage_of_all_sendOk (conns : List Conn) (e : Envelope)
    (h : ∀ c ∈ conns, c.sendOk = true) :
    broadcastMessage conns e = (conns.map fun c => Output.send c.id e, true) := by
  induction conns with
  | nil => rfl
  | cons c rest ih =>
    have hc : c.sendOk = true := h c (List.mem_cons_self c rest)
    have hr := ih fun x hx => h x (List.mem_cons_of_mem c hx)
    simp [broadcastMessage, hc, hr]

/-- Inserting a row newer than everything in the list pushes it past the
whole list. -/
theorem sortedInsertDesc_of_lt (m : Message) (l : List Message)
    (h : ∀ y ∈ l, m.createdAt < y.createdAt) :
    sortedInsertDesc m l = l ++ [m] := by
  induction l with
  | nil => rfl
  | cons x xs ih =>
    have hx : m.createdAt < x.createdAt := h x (List.mem_cons_self x xs)
    have hnot : ¬ x.createdAt ≤ m.createdAt := by omega
    simp [sortedInsertDesc, hnot, ih fun y hy => h y (List.mem_cons_of_mem x hy)]

/-- Appending a row strictly newer than everything already stored puts it
at the head of the descending sort. -/
theorem sortDescByCreatedAt_append_newest (l : List Message) (m : Message)
    (h : ∀ y ∈ l, y.createdAt < m.createdAt) :
    sortDescByCreatedAt (l ++ [m]) = m :: sortDescByCreatedAt l := by
  induction l with
  | nil => rfl
  | cons x xs ih =>
    have hx : x.createdAt < m.createdAt := h x (List.mem_cons_self x xs)
    have hnot : ¬ m.createdAt ≤ x.createdAt := by omega
    have hstep : sortDescByCreatedAt (x :: (xs ++ [m])) =
        sortedInsertDesc x (sortDescByCreatedAt (xs ++ [m])) := rfl
    rw [List.cons_append, hstep, ih fun y hy => h y (List.mem_cons_of_mem x hy),
      sortedInsertDesc, if_neg hnot]
    rfl

/-- On a store whose log is strictly ascending in `createdAt`, the
`ORDER BY created_at DESC` view is exactly the reversed log. -/
theorem sortDescByCreatedAt_of_ascending (l : List Message)
    (h : l.Pairwise fun a b => a.createdAt < b.createdAt) :
    sortDescByCreatedAt l = l.reverse := by
  induction l with
  | nil => rfl
  | cons x xs ih =>
    obtain ⟨hx, hxs⟩ := List.pairwise_cons.mp h
    rw [sortDescByCreatedAt, ih hxs, List.reverse_cons,
      sortedInsertDesc_of_lt x xs.reverse fun y hy => hx y (List.mem_reverse.mp hy)]

/-- The accept tail of `fetch` when the new socket and every registered
socket deliver: the connection is registered, `init` and the history
replay go to it alone, then the online count (the new socket counted)
and the join event are broadcast to the whole registry. -/
theorem acceptAndGreet_all_ok (st : RoomState) (u : User) (cid : Nat)
    (hsend : ∀ c ∈ st.conns, c.sendOk = true) :
    acceptAndGreet st u cid true =
      FetchResult.accepted u
        { st with conns := st.conns ++ [newConn cid u] }
        (Output.send cid (.init u) ::
          (sendHistoryMessages st.db (newConn cid u) ++
            (((st.conns ++ [newConn cid u]).map fun c =>
                Output.send c.id (.onlineCount (st.conns.length + 1))) ++
              ((st.conns ++ [newConn cid u]).map fun c =>
                Output.send c.id (.userJoin u))))) := by
  have hall : ∀ c ∈ st.conns ++ [newConn cid u], c.sendOk = true := by
    intro c hc
    rcases List.mem_append.mp hc with hmem | hmem
    · exact hsend c hmem
    · rw [List.mem_singleton.mp hmem]; rfl
  have h1 := broadcastMessage_of_all_sendOk _ (.onlineCount (st.conns.length + 1)) hall
  have h2 := broadcastMessage_of_all_sendOk _ (.userJoin u) hall
  simp [acceptAndGreet, newConn] at h1 h2 ⊢
  simp [h1, h2]

/-- On a healthy store whose log is strictly ascending in `createdAt`
and holds at least one message, history replay sends exactly one
`history_messages` envelope, to the requesting socket alone, carrying
the last `min(50, total)` messages in log (chronological) order, each
annotated with its sender. -/
theorem sendHistoryMessages_eq_of_ascending (db : Db) (ws : Conn)
    (hok : db.ok = true) (hws : ws.sendOk = true)
    (hasc : db.messages.Pairwise fun a b => a.createdAt < b.createdAt)
    (hne : db.messages ≠ []) :
    sendHistoryMessages db ws =
      [Output.send ws.id (.historyMessages
        ((db.messages.drop (db.messages.length - 50)).map (annotate db)))] := by
  have hsort := sortDescByCreatedAt_of_ascending db.messages hasc
  have hpos : 0 < db.messages.length := List.length_pos.mpr hne
  have hrev : (db.messages.reverse.take 50).reverse =
      db.messages.drop (db.messages.length - 50) := by
    rw [← List.rtake_eq_reverse_take_reverse]; rfl
  simp only [sendHistoryMessages, recentMessages, hsort, hok, hws, if_true,
    List.length_take, List.length_reverse]
  rw [if_pos (by omega : 0 < min 50 db.messages.length),
    (List.map_reverse (annotate db) (db.messages.reverse.take 50)).symm, hrev]

/-! ## The claims -/

/-- C1: identity resolution by the persisted coordinator.  Without an
identity token a fresh participant (server-generated id, generated
display name) is created with exactly one store write — one row appended
to `users`, the message log untouched — and returned.  With a token that
matches a stored participant, that participant is returned unchanged and
the store is not written.  With a token matching nothing, the attempt is
answered with HTTP 400 and the coordinator state is returned untouched:
no replacement identity is ever fabricated. -/
theorem c1_identity_resolution (st : RoomState) (cid : Nat)
    (hok : st.db.ok = true)
    (hsend : ∀ c ∈ st.conns, c.sendOk = true) :
    (∃ u st2 outs,
        fetch st none cid true = .accepted u st2 outs ∧
        u.id = freshUserId st.db.seed ∧
        u.name = getRandomName st.db.seed ∧
        st2.db.users = st.db.users ++ [u] ∧
        st2.db.messages = st.db.messages) ∧
    (∀ uid u, uid ≠ "" → findUser st.db uid = some u →
        ∃ st2 outs,
          fetch st (some uid) cid true = .accepted u st2 outs ∧
          st2.db = st.db) ∧
    (∀ uid, uid ≠ "" → findUser st.db uid = none →
        fetch st (some uid) cid true = .rejected400 st) := by
  refine ⟨?_, ?_, ?_⟩
  · let u0 : User := ⟨freshUserId st.db.seed, getRandomName st.db.seed, st.db.now⟩
    let st0 : RoomState :=
      { st with db :=
          { st.db with users := st.db.users ++ [u0], seed := st.db.seed + 1 } }
    have hfetch : fetch st none cid true = acceptAndGreet st0 u0 cid true := by
      simp [fetch, insertDefaultUser, hok, st0, u0]
    rw [acceptAndGreet_all_ok st0 u0 cid hsend] at hfetch
    exact ⟨u0, _, _, hfetch, rfl, rfl, rfl, rfl⟩
  · intro uid u huid hfind
    have hfetch : fetch st (some uid) cid true = acceptAndGreet st u cid true := by
      simp [fetch, huid, hok, hfind]
    rw [acceptAndGreet_all_ok st u cid hsend] at hfetch
    exact ⟨_, _, hfetch, rfl⟩
  · intro uid huid hfind
    simp [fetch, huid, hok, hfind]

/-- C2, counterexample: on a healthy store holding zero messages, the
freshly connected client receives no `history_messages` envelope at all
— the code only sends when `messages.length > 0` — contradicting the
claim that it still receives an envelope with zero entries. -/
theorem c2_zero_history_counterexample :
    sendHistoryMessages dbEmptyStore connA = [] ∧
    sendHistoryMessages dbEmptyStore connA ≠
      [Output.send connA.id (.historyMessages [])] := by
  constructor
  · rfl
  · intro h
    simp [sendHistoryMessages, dbEmptyStore, recentMessages, sortDescByCreatedAt] at h

/-- C2, amended: when the store holds at least one message, history
replay sends exactly one `history_messages` envelope to the requesting
connection only, containing exactly the last `min(50, total)` persisted
messages in ascending `createdAt` order, each annotated with its
sender's `{id, name}` (placeholder when the sender row is missing);
when the store holds zero messages, no `history_messages` envelope is
sent at all. -/
theorem c2_history_replay (db : Db) (ws : Conn)
    (hok : db.ok = true) (hws : ws.sendOk = true)
    (hasc : db.messages.Pairwise fun a b => a.createdAt < b.createdAt) :
    (db.messages = [] → sendHistoryMessages db ws = []) ∧
    (db.messages ≠ [] →
      sendHistoryMessages db ws =
        [Output.send ws.id (.historyMessages
          ((db.messages.drop (db.messages.length - 50)).map (annotate db)))] ∧
      ((db.messages.drop (db.messages.length - 50)).map (annotate db)).length =
        min 50 db.messages.length ∧
      ((db.messages.drop (db.messages.length - 50)).map (annotate db)).Pairwise
        fun a b => a.msg.createdAt < b.msg.createdAt) := by
  constructor
  · intro hempty
    simp [sendHistoryMessages, recentMessages, hempty, sortDescByCreatedAt]
  · intro hne
    refine ⟨sendHistoryMessages_eq_of_ascending db ws hok hws hasc hne, ?_, ?_⟩
    · have hpos : 0 < db.messages.length := List.length_pos.mpr hne
      simp [List.length_drop]
      omega
    · exact ((hasc.sublist (List.drop_sublist _ _)).map _ fun a b h => h)

/-- C2, witness: the amended replay theorem instantiated on `dbLive`
(two messages in ascending order, the second sender row missing, so the
placeholder branch of `annotate` is exercised) and the healthy `connA`. -/
theorem c2_history_replay_witness :
    (dbLive.messages = [] → sendHistoryMessages dbLive connA = []) ∧
    (dbLive.messages ≠ [] →
      sendHistoryMessages dbLive connA =
        [Output.send connA.id (.historyMessages
          ((dbLive.messages.drop (dbLive.messages.length - 50)).map
            (annotate dbLive)))] ∧
      ((dbLive.messages.drop (dbLive.messages.length - 50)).map
        (annotate dbLive)).length = min 50 dbLive.messages.length ∧
      ((dbLive.messages.drop (dbLive.messages.length - 50)).map
        (annotate dbLive)).Pairwise
        fun a b => a.msg.createdAt < b.msg.createdAt) :=
  c2_history_replay dbLive connA rfl rfl (by decide)

/-- C3: a chat message accepted by the persisted coordinator is appended
to the store and the `message` envelope carrying the stored row and the
sender's `{id, name}` is sent to every connection live at append time,
the sender's own connection included. -/
theorem c3_chat_broadcast (st : RoomState) (c : Conn) (typ : Option String)
    (content : String) (mt : MessageType) (md : Option ClientMetadata)
    (sender : User)
    (hok : st.db.ok = true)
    (hsender : findUser st.db c.userId = some sender)
    (hsend : ∀ x ∈ st.conns, x.sendOk = true)
    (hc : c ∈ st.conns) :
    ∃ m st2 outs,
      webSocketMessage st c (.json typ (some content) (some mt) md) =
        .ok st2 outs ∧
      st2.db.messages = st.db.messages ++ [m] ∧
      st2.conns = st.conns ∧
      m.userId = c.userId ∧ m.messageType = mt ∧ m.content = content ∧
      m.id = freshMessageId st.db.seed ∧ m.createdAt = st.db.now ∧
      outs = st.conns.map (fun x =>
        Output.send x.id (.chat m { id := sender.id, name := sender.name })) ∧
      (∀ x ∈ st.conns,
        Output.send x.id (.chat m { id := sender.id, name := sender.name })
          ∈ outs) ∧
      Output.send c.id (.chat m { id := sender.id, name := sender.name })
        ∈ outs := by
  let m0 : Message :=
    { id := freshMessageId st.db.seed, userId := c.userId, messageType := mt,
      content := content, metadata := computeMetadata (some mt) md,
      createdAt := st.db.now }
  have hins : insertMessage st.db c.userId (some mt) (some content)
      (computeMetadata (some mt) md) =
      .ok (m0,
        { st.db with messages := st.db.messages ++ [m0], seed := st.db.seed + 1 }) := by
    simp [insertMessage, hok, m0]
  have hbc := broadcastMessage_of_all_sendOk st.conns
    (.chat m0 { id := sender.id, name := sender.name }) hsend
  have heq : webSocketMessage st c (.json typ (some content) (some mt) md) =
      .ok
        { st with db :=
            { st.db with messages := st.db.messages ++ [m0], seed := st.db.seed + 1 } }
        (st.conns.map fun x =>
          Output.send x.id (.chat m0 { id := sender.id, name := sender.name })) := by
    simp [webSocketMessage, hok, hsender, hins, hbc]
  refine ⟨m0, _, _, heq, rfl, rfl, rfl, rfl, rfl, rfl, rfl, rfl, ?_, ?_⟩
  · intro x hx
    exact List.mem_map_of_mem _ hx
  · exact List.mem_map_of_mem _ hc

/-- C3, witness: `userA` sends "hello" over `connA` in the two-connection
room `stLive`; both connections (the sender's included) receive the
stored row. -/
theorem c3_chat_broadcast_witness :
    ∃ m st2 outs,
      webSocketMessage stLive connA
          (.json (some "message") (some "hello") (some .TEXT) none) =
        .ok st2 outs ∧
      st2.db.messages = stLive.db.messages ++ [m] ∧
      st2.conns = stLive.conns ∧
      m.userId = connA.userId ∧ m.messageType = .TEXT ∧ m.content = "hello" ∧
      m.id = freshMessageId stLive.db.seed ∧ m.createdAt = stLive.db.now ∧
      outs = stLive.conns.map (fun x =>
        Output.send x.id (.chat m { id := userA.id, name := userA.name })) ∧
      (∀ x ∈ stLive.conns,
        Output.send x.id (.chat m { id := userA.id, name := userA.name })
          ∈ outs) ∧
      Output.send connA.id (.chat m { id := userA.id, name := userA.name })
        ∈ outs :=
  c3_chat_broadcast stLive connA (some "message") "hello" .TEXT none userA
    rfl (by decide) (by decide) (by decide)

/-- C4: after every accepted connect and after every disconnect, an
`online_count` envelope is broadcast to all live connections (on
connect, the newly registered connection included), and its count
equals the exact number of live connections at that point — the length
of the connection registry, so two connections with the same identity
count twice. -/
theorem c4_online_count (st : RoomState)
    (hok : st.db.ok = true)
    (hsend : ∀ c ∈ st.conns, c.sendOk = true) :
    (∀ cand cid u st2 outs,
        fetch st cand cid true = .accepted u st2 outs →
        st2.conns = st.conns ++ [newConn cid u] ∧
        st2.conns.length = st.conns.length + 1 ∧
        ∀ x ∈ st2.conns,
          Output.send x.id (.onlineCount st2.conns.length) ∈ outs) ∧
    (∀ c u st2 outs,
        c.userId ≠ "" →
        findUser st.db c.userId = some u →
        webSocketClose st c = .ok st2 outs →
        st2.conns = st.conns.filter (fun x => x.id ≠ c.id) ∧
        ∀ x ∈ st2.conns,
          Output.send x.id (.onlineCount st2.conns.length) ∈ outs) := by
  constructor
  · intro cand cid u st2 outs hfetch
    by_cases huid : cand.getD "" = ""
    · let u0 : User := ⟨freshUserId st.db.seed, getRandomName st.db.seed, st.db.now⟩
      let st0 : RoomState :=
        { st with db :=
            { st.db with users := st.db.users ++ [u0], seed := st.db.seed + 1 } }
      have hform : fetch st cand cid true = acceptAndGreet st0 u0 cid true := by
        simp [fetch, huid, insertDefaultUser, hok, st0, u0]
      rw [hform, acceptAndGreet_all_ok st0 u0 cid hsend] at hfetch
      injection hfetch with hu hst houts
      subst hst houts
      refine ⟨by rw [← hu], by simp, ?_⟩
      intro x hx
      have hmem : Output.send x.id (.onlineCount (st.conns.length + 1)) ∈
          (st.conns ++ [newConn cid u0]).map
            (fun y => Output.send y.id (.onlineCount (st.conns.length + 1))) :=
        List.mem_map_of_mem _ hx
      simp only [List.length_append, List.length_cons, List.length_nil,
        List.mem_cons, List.mem_append]
      right
      right
      left
      simpa using hmem
    · rcases hu : findUser st.db (cand.getD "") with _ | u1
      · have hform : fetch st cand cid true = .rejected400 st := by
          simp [fetch, huid, hok, hu]
        rw [hform] at hfetch
        exact absurd hfetch (by simp)
      · have hform : fetch st cand cid true = acceptAndGreet st u1 cid true := by
          simp [fetch, huid, hok, hu]
        rw [hform, acceptAndGreet_all_ok st u1 cid hsend] at hfetch
        injection hfetch with hu2 hst houts
        subst hst houts
        refine ⟨by rw [← hu2], by simp, ?_⟩
        intro x hx
        have hmem : Output.send x.id (.onlineCount (st.conns.length + 1)) ∈
            (st.conns ++ [newConn cid u1]).map
              (fun y => Output.send y.id (.onlineCount (st.conns.length + 1))) :=
          List.mem_map_of_mem _ hx
        simp only [List.length_append, List.length_cons, List.length_nil,
          List.mem_cons, List.mem_append]
        right
        right
        left
        simpa using hmem
  · intro c u st2 outs hid hfind hclose
    have hsub : ∀ x ∈ st.conns.filter (fun y => y.id ≠ c.id), x.sendOk = true :=
      fun x hx => hsend x (List.mem_of_mem_filter hx)
    have h1 := broadcastMessage_of_all_sendOk _
      (.onlineCount (st.conns.filter (fun y => y.id ≠ c.id)).length) hsub
    have h2 := broadcastMessage_of_all_sendOk _ (.userLeave u) hsub
    have hform : webSocketClose st c =
        .ok { st with conns := st.conns.filter (fun y => y.id ≠ c.id) }
          (((st.conns.filter (fun y => y.id ≠ c.id)).map fun x =>
              Output.send x.id
                (.onlineCount (st.conns.filter (fun y => y.id ≠ c.id)).length)) ++
            ((st.conns.filter (fun y => y.id ≠ c.id)).map fun x =>
              Output.send x.id (.userLeave u))) := by
      simp only [ne_eq, decide_not] at h1 h2
      simp [webSocketClose, hid, hok, hfind, h1, h2]
    rw [hform] at hclose
    injection hclose with hst houts
    subst hst houts
    refine ⟨rfl, ?_⟩
    intro x hx
    exact List.mem_append_left _ (List.mem_map_of_mem _ hx)

/-- C4, witness: instantiated on the room `stLive`, which holds two live
connections attached to the same participant — the registry counts
connections, not identities. -/
theorem c4_online_count_witness :
    (∀ cand cid u st2 outs,
        fetch stLive cand cid true = .accepted u st2 outs →
        st2.conns = stLive.conns ++ [newConn cid u] ∧
        st2.conns.length = stLive.conns.length + 1 ∧
        ∀ x ∈ st2.conns,
          Output.send x.id (.onlineCount st2.conns.length) ∈ outs) ∧
    (∀ c u st2 outs,
        c.userId ≠ "" →
        findUser stLive.db c.userId = some u →
        webSocketClose stLive c = .ok st2 outs →
        st2.conns = stLive.conns.filter (fun x => x.id ≠ c.id) ∧
        ∀ x ∈ st2.conns,
          Output.send x.id (.onlineCount st2.conns.length) ∈ outs) :=
  c4_online_count stLive rfl (by decide)

/-- C1, witness: the three branches instantiated on a concrete store
holding the single participant `userA`. -/
theorem c1_identity_resolution_witness :
    (∃ u st2 outs,
        fetch stEmptyStore none 7 true = .accepted u st2 outs ∧
        u.id = freshUserId stEmptyStore.db.seed ∧
        u.name = getRandomName stEmptyStore.db.seed ∧
        st2.db.users = stEmptyStore.db.users ++ [u] ∧
        st2.db.messages = stEmptyStore.db.messages) ∧
    (∀ uid u, uid ≠ "" → findUser stEmptyStore.db uid = some u →
        ∃ st2 outs,
          fetch stEmptyStore (some uid) 7 true = .accepted u st2 outs ∧
          st2.db = stEmptyStore.db) ∧
    (∀ uid, uid ≠ "" → findUser stEmptyStore.db uid = none →
        fetch stEmptyStore (some uid) 7 true = .rejected400 stEmptyStore) :=
  c1_identity_resolution stEmptyStore 7 rfl (by decide)

/-- C5 (code-bug evidence): a malformed inbound payload is not dropped
silently.  `webSocketMessage` has no `try/catch`: a text frame that is
not valid JSON makes `JSON.parse` throw, and a parsed payload missing
the required `content`/`messageType` fields makes the `NOT NULL` insert
throw; both exceptions escape the handler uncaught (`errored`) instead
of being logged and swallowed — though nothing is stored and nothing is
broadcast.  Only a binary frame is dropped silently, by the explicit
`typeof message !== "string"` guard. -/
theorem c5_malformed_payload_crashes :
    webSocketMessage stEmptyStore connA .notJson = .errored stEmptyStore [] ∧
    webSocketMessage stEmptyStore connA (.json (some "message") none none none) =
      .errored stEmptyStore [] ∧
    webSocketMessage stEmptyStore connA .binary = .ok stEmptyStore [] := by
  decide

/-- C6 (code-bug evidence): `broadcastMessage` iterates plain
`client.send(...)` with no per-connection guard, so the first failing
send aborts the loop: with three live connections of which the second
is closing, only the first receives the envelope — the third, although
healthy, is never attempted — and the exception escapes the broadcast. -/
theorem c6_delivery_failure_aborts_broadcast :
    broadcastMessage [connA, connBad, connC] (.onlineCount 3) =
      ([Output.send connA.id (.onlineCount 3)], false) ∧
    connC.sendOk = true ∧
    Output.send connC.id (.onlineCount 3) ∉
      (broadcastMessage [connA, connBad, connC] (.onlineCount 3)).1 := by
  decide

/-- C7 (code-bug evidence): storage failures are contained only on the
history-replay path.  `sendHistoryMessages` wraps its queries in
`try/catch`, so on a failing store it returns normally having sent
nothing; but `webSocketMessage` has no such guard, so a failing append
escapes the handler as an uncaught exception (`errored`) instead of
only abandoning the triggering operation.  In both cases nothing is
stored, nothing is broadcast, and no retry happens. -/
theorem c7_storage_failure_divergence :
    sendHistoryMessages dbDown connA = [] ∧
    webSocketMessage stDown connA
        (.json (some "message") (some "hi") (some .TEXT) none) =
      .errored stDown [] := by
  decide

/-- C9 (code-bug evidence): the reject loop never converges.  The
coordinator rejects an unrecognized id with HTTP 400, which surfaces to
the browser as a failed handshake with abnormal-closure code 1006 —
never 1008/1011, the only codes on which `ws.onclose` clears the stored
id.  So after a rejection the client retries with the same invalid id:
one retry round is a fixpoint of the client state, and every iterate
keeps the invalid id, rejected forever. -/
theorem c9_invalid_id_never_cleared :
    fetch stFresh (some "ghost") 0 true = .rejected400 stFresh ∧
    onCloseUpdate csGhost rejectionCloseCode = csGhost ∧
    clientRetryStep stFresh csGhost 0 = csGhost ∧
    ∀ n : Nat, (fun cs => clientRetryStep stFresh cs 0)^[n] csGhost = csGhost := by
  refine ⟨by decide, by decide, by decide, fun n => Function.iterate_fixed (by decide) n⟩

/-- C8: appending to the message store and reading back
`recentMessages(1)` returns a row equal to the append in `userId`,
`messageType`, `content` and `metadata`; `id` and `createdAt` are
assigned by the store (from its seed and clock, not by the caller), are
present, and the assigned `createdAt` is not below any previously
accepted append. -/
theorem c8_append_roundtrip (db : Db) (uid content : String) (mt : MessageType)
    (md : Option ImageMetadata)
    (hok : db.ok = true)
    (hfresh : ∀ m ∈ db.messages, m.createdAt < db.now) :
    ∃ m db1,
      insertMessage db uid (some mt) (some content) md = .ok (m, db1) ∧
      m.userId = uid ∧ m.messageType = mt ∧ m.content = content ∧
      m.metadata = md ∧
      m.id = freshMessageId db.seed ∧ m.createdAt = db.now ∧
      db1.messages = db.messages ++ [m] ∧
      recentMessages db1 1 = [m] ∧
      (∀ m0 ∈ db.messages, m0.createdAt ≤ m.createdAt) := by
  let m0 : Message :=
    { id := freshMessageId db.seed, userId := uid, messageType := mt,
      content := content, metadata := md, createdAt := db.now }
  have hins : insertMessage db uid (some mt) (some content) md =
      .ok (m0, { db with messages := db.messages ++ [m0], seed := db.seed + 1 }) := by
    simp [insertMessage, hok, m0]
  have hrec : recentMessages
      { db with messages := db.messages ++ [m0], seed := db.seed + 1 } 1 = [m0] := by
    show (sortDescByCreatedAt (db.messages ++ [m0])).take 1 = [m0]
    rw [sortDescByCreatedAt_append_newest db.messages m0 hfresh]
    rfl
  exact ⟨m0, _, hins, rfl, rfl, rfl, rfl, rfl, rfl, rfl, hrec,
    fun m1 hm1 => le_of_lt (hfresh m1 hm1)⟩

/-- C8, witness: a TEXT append on `dbLive` (existing rows at
`createdAt` 3 and 5, clock at 8) read back through
`recentMessages(1)`. -/
theorem c8_append_roundtrip_witness :
    ∃ m db1,
      insertMessage dbLive "u-a" (some .TEXT) (some "third") none =
        .ok (m, db1) ∧
      m.userId = "u-a" ∧ m.messageType = .TEXT ∧ m.content = "third" ∧
      m.metadata = none ∧
      m.id = freshMessageId dbLive.seed ∧ m.createdAt = dbLive.now ∧
      db1.messages = dbLive.messages ++ [m] ∧
      recentMessages db1 1 = [m] ∧
      (∀ m0 ∈ dbLive.messages, m0.createdAt ≤ m.createdAt) :=
  c8_append_roundtrip dbLive "u-a" "third" .TEXT none rfl (by decide)

/-- C10: the metadata persistence policy of the persisted coordinator.
Messages whose type is not IMAGE (AUDIO in particular) are stored with
null metadata, any client-supplied metadata silently discarded; an
IMAGE message with supplied metadata is stored and broadcast with
width, height and fileSize coerced (defaulting to 0 when missing), the
mime type defaulting to "image/webp" when missing or empty, and a
thumbnail URL included exactly when a non-empty one was supplied. -/
theorem c10_metadata_policy :
    (∀ cm, computeMetadata (some .TEXT) cm = none) ∧
    (∀ cm, computeMetadata (some MessageType.AUDIO) cm = none) ∧
    (∀ cm, ∃ im, computeMetadata (some .IMAGE) (some cm) = some im ∧
      im.width = cm.width.getD 0 ∧
      im.height = cm.height.getD 0 ∧
      im.fileSize = cm.fileSize.getD 0 ∧
      ((cm.mimeType = none ∨ cm.mimeType = some "") →
        im.mimeType = "image/webp") ∧
      (∀ s, cm.mimeType = some s → s ≠ "" → im.mimeType = s) ∧
      (∀ s, im.thumbnailUrl = some s → cm.thumbnailUrl = some s ∧ s ≠ "") ∧
      (∀ s, cm.thumbnailUrl = some s → s ≠ "" → im.thumbnailUrl = some s)) ∧
    (∀ st c typ content mt cm sender,
        st.db.ok = true →
        findUser st.db c.userId = some sender →
        (∀ x ∈ st.conns, x.sendOk = true) →
        ∃ m st2 outs,
          webSocketMessage st c (.json typ (some content) (some mt) (some cm)) =
            .ok st2 outs ∧
          st2.db.messages = st.db.messages ++ [m] ∧
          m.metadata = computeMetadata (some mt) (some cm) ∧
          (mt ≠ .IMAGE → m.metadata = none) ∧
          outs = st.conns.map (fun x =>
            Output.send x.id (.chat m { id := sender.id, name := sender.name }))) := by
  refine ⟨fun cm => by cases cm <;> rfl, fun cm => by cases cm <;> rfl, ?_, ?_⟩
  · intro cm
    refine ⟨_, rfl, rfl, rfl, rfl, ?_, ?_, ?_, ?_⟩
    · rintro (h | h) <;> simp [computeMetadata, h]
    · intro s h hne
      simp [computeMetadata, h, hne]
    · intro s hs
      rcases ht : cm.thumbnailUrl with _ | t
      · simp [computeMetadata, ht] at hs
      · by_cases he : t = ""
        · simp [computeMetadata, ht, he] at hs
        · simp [computeMetadata, ht, he] at hs
          subst hs
          exact ⟨by simp [ht], he⟩
    · intro s h hne
      simp [computeMetadata, h, hne]
  · intro st c typ content mt cm sender hok hsender hsend
    let m0 : Message :=
      { id := freshMessageId st.db.seed, userId := c.userId, messageType := mt,
        content := content, metadata := computeMetadata (some mt) (some cm),
        createdAt := st.db.now }
    have hins : insertMessage st.db c.userId (some mt) (some content)
        (computeMetadata (some mt) (some cm)) =
        .ok (m0, { st.db with messages := st.db.messages ++ [m0], seed := st.db.seed + 1 }) := by
      simp [insertMessage, hok, m0]
    have hbc := broadcastMessage_of_all_sendOk st.conns
      (.chat m0 { id := sender.id, name := sender.name }) hsend
    have heq : webSocketMessage st c (.json typ (some content) (some mt) (some cm)) =
        .ok
          { st with db :=
              { st.db with messages := st.db.messages ++ [m0], seed := st.db.seed + 1 } }
          (st.conns.map fun x =>
            Output.send x.id (.chat m0 { id := sender.id, name := sender.name })) := by
      simp [webSocketMessage, hok, hsender, hins, hbc]
    refine ⟨m0, _, _, heq, rfl, rfl, ?_, rfl⟩
    intro hmt
    cases mt with
    | IMAGE => exact absurd rfl hmt
    | TEXT => rfl
    | AUDIO => rfl

/-- C10, witness: an AUDIO message carrying full client metadata is
stored and broadcast with null metadata — the supplied metadata is
discarded. -/
theorem c10_metadata_policy_witness :
    ∃ m st2 outs,
      webSocketMessage stLive connA
          (.json (some "message") (some "voice.webm") (some MessageType.AUDIO) (some cmW)) =
        .ok st2 outs ∧
      st2.db.messages = stLive.db.messages ++ [m] ∧
      m.metadata = computeMetadata (some MessageType.AUDIO) (some cmW) ∧
      (MessageType.AUDIO ≠ .IMAGE → m.metadata = none) ∧
      outs = stLive.conns.map (fun x =>
        Output.send x.id (.chat m { id := userA.id, name := userA.name })) :=
  c10_metadata_policy.2.2.2 stLive connA (some "message") "voice.webm" MessageType.AUDIO
    cmW userA rfl (by decide) (by decide)

end AnonChat
